import Mathlib

/-!
Shallow embedding of the crawl-and-ingest orchestrator of the `indextr`
repository (`src/scrapers/Doaj_scraper_multiproces.py`,
`src/scrapers/dergipark_hybric.py`, `src/scrapers/holy_yoktez_scraper.py`),
together with theorems settling the frozen claims C1..C10 about it.

Conventions of the embedding:
* pure Python functions become Lean functions; loops become folds or
  recursion on lists;
* network calls are abstracted by oracle parameters (a `fetch` function)
  exactly at the boundary where the source performs `session.get` /
  `requests.get` / `page.goto`;
* a Python `try/except` that catches everything and yields `None` / `[]`
  is modelled by the oracle returning `Option`/`Except` values;
* the asynchronous year-sharded crawl is modelled by the trace of
  resource events its `await` structure forces (see `yearTrace`).
-/

namespace Indextr

/-! ## Partitioner
`Doaj_scraper_multiproces.py`, `scrape_all_articles_SIMPLE` (lines 216-227):
```
chunk_size = math.ceil(len(page_numbers) / self.num_processes)
for i in range(0, len(page_numbers), chunk_size):
    chunk = page_numbers[i:i + chunk_size]
    if chunk: process_args.append((chunk, ...))
```
`dergipark_hybric.py`, `hybrid_scrape_articles` (lines 569-583) does the same
slicing on `all_article_urls`, after an early `return []` on empty input.
-/

/-- ceilDiv n k models Python `math.ceil(n / k)` on naturals (`k > 0`);
for `k = 0` it returns `0`, the branch the partitioners treat as an error. -/
def ceilDiv (n k : Nat) : Nat := (n + k - 1) / k

/-- sliceChunksFuel is the recursion worker for `sliceChunks`: every step
emits the slice `l[0:c]` and recurses on `l[c:]`, consuming one unit of
fuel.  Each step removes at least one element, so fuel equal to the list
length always suffices; the out-of-fuel branch on a non-empty list is
unreachable from `sliceChunks`. -/
def sliceChunksFuel (c : Nat) : Nat → List α → List (List α)
  | _, [] => []
  | 0, _ :: _ => []
  | fuel + 1, x :: xs => (x :: xs.take (c - 1)) :: sliceChunksFuel c fuel (xs.drop (c - 1))

/-- sliceChunks c l models the Python slice loop
`[l[i:i+c] for i in range(0, len(l), c)]` for a positive step `c`:
the first chunk is `l[0:c]`, then recurse on `l[c:]`. -/
def sliceChunks (c : Nat) (l : List α) : List (List α) :=
  sliceChunksFuel c l.length l

/-- doajPartition models the page-chunk generation of
`scrape_all_articles_SIMPLE`: `chunk_size = ceil(n / num_processes)`, then the
slice loop, keeping non-empty chunks (`if chunk:`).  When the computed step is
`0` (empty page list, or `num_processes = 0` where Python raises
`ZeroDivisionError` inside `ceil`), Python's `range(0, n, 0)` raises
`ValueError`, modelled as an error value. -/
def doajPartition (numProcesses : Nat) (l : List α) : Except String (List (List α)) :=
  let c := ceilDiv l.length numProcesses
  if c = 0 then Except.error "range() arg 3 must not be zero"
  else Except.ok ((sliceChunks c l).filter (fun ch => !ch.isEmpty))

/-- hybridPartition models the chunking in `hybrid_scrape_articles`:
`if not all_article_urls: return []`, then the same slice loop with
`chunk_size = ceil(n / num_processes)` and the `if chunk` filter. -/
def hybridPartition (numProcesses : Nat) (l : List α) : List (List α) :=
  if l.isEmpty then []
  else (sliceChunks (ceilDiv l.length numProcesses) l).filter (fun ch => !ch.isEmpty)

/-- chunkWeights gives the total estimated unit count of each chunk, the
quantity the spec's Partitioner is claimed to balance. -/
def chunkWeights (chunks : List (List Nat)) : List Nat := chunks.map List.sum

theorem sliceChunksFuel_ne_nil (c : Nat) :
    ∀ (fuel : Nat) (l : List α), l.length ≤ fuel → ∀ ch ∈ sliceChunksFuel c fuel l, ch ≠ [] := by
  intro fuel
  induction fuel with
  | zero =>
    intro l hl
    have : l = [] := List.eq_nil_of_length_eq_zero (Nat.le_zero.mp hl)
    subst this
    simp [sliceChunksFuel]
  | succ n ih =>
    intro l hl ch hch
    cases l with
    | nil => simp [sliceChunksFuel] at hch
    | cons x xs =>
      simp only [sliceChunksFuel] at hch
      rcases List.mem_cons.mp hch with h | h
      · subst h; simp
      · exact ih (xs.drop (c - 1)) (by simp at hl ⊢; omega) ch h

theorem sliceChunks_ne_nil (c : Nat) (l : List α) : ∀ ch ∈ sliceChunks c l, ch ≠ [] :=
  sliceChunksFuel_ne_nil c l.length l (Nat.le_refl _)

theorem sliceChunksFuel_flatten (c : Nat) :
    ∀ (fuel : Nat) (l : List α), l.length ≤ fuel → (sliceChunksFuel c fuel l).flatten = l := by
  intro fuel
  induction fuel with
  | zero =>
    intro l hl
    have : l = [] := List.eq_nil_of_length_eq_zero (Nat.le_zero.mp hl)
    subst this
    simp [sliceChunksFuel]
  | succ n ih =>
    intro l hl
    cases l with
    | nil => simp [sliceChunksFuel]
    | cons x xs =>
      simp only [sliceChunksFuel, List.flatten_cons]
      rw [ih (xs.drop (c - 1)) (by simp at hl ⊢; omega)]
      simp [List.take_append_drop]

theorem sliceChunks_join (c : Nat) (l : List α) : (sliceChunks c l).flatten = l :=
  sliceChunksFuel_flatten c l.length l (Nat.le_refl _)

theorem sliceChunks_filter (c : Nat) (l : List α) :
    (sliceChunks c l).filter (fun ch => !ch.isEmpty) = sliceChunks c l := by
  apply List.filter_eq_self.mpr
  intro ch hch
  simpa [List.isEmpty_iff] using sliceChunks_ne_nil c l ch hch

theorem sliceChunksFuel_length_le (c : Nat) (hc : 0 < c) :
    ∀ (fuel : Nat) (l : List α), l.length ≤ fuel →
      ∀ ch ∈ sliceChunksFuel c fuel l, ch.length ≤ c := by
  intro fuel
  induction fuel with
  | zero =>
    intro l hl
    have : l = [] := List.eq_nil_of_length_eq_zero (Nat.le_zero.mp hl)
    subst this
    simp [sliceChunksFuel]
  | succ n ih =>
    intro l hl ch hch
    cases l with
    | nil => simp [sliceChunksFuel] at hch
    | cons x xs =>
      simp only [sliceChunksFuel] at hch
      rcases List.mem_cons.mp hch with h | h
      · subst h
        simp only [List.length_cons]
        have := List.length_take_le (c - 1) xs
        omega
      · exact ih (xs.drop (c - 1)) (by simp at hl ⊢; omega) ch h

theorem sliceChunks_length_le (c : Nat) (hc : 0 < c) (l : List α) :
    ∀ ch ∈ sliceChunks c l, ch.length ≤ c :=
  sliceChunksFuel_length_le c hc l.length l (Nat.le_refl _)

/-! ## Fetcher and per-unit processing
`Doaj_scraper_multiproces.py`, `get_articles_page_standalone` (lines 360-387)
performs a single `session.get` inside one `try`: any exception (timeout,
connection reset, HTTP error status raised by `raise_for_status`, JSON
decoding) is caught and the function returns `None`.  There is no retry loop
and no backoff sleep inside it. -/

/-- FetchOutcome classifies one HTTP attempt as the spec's error taxonomy
does: a JSON payload on success, or a transient network failure (timeout,
connection reset, 5xx), or a permanent client failure (other 4xx, parse
error).  The source catches every failure kind identically. -/
inductive FetchOutcome (J : Type) where
  | success : J → FetchOutcome J
  | transientNetwork : FetchOutcome J
  | permanentClient : FetchOutcome J
deriving DecidableEq

/-- get_articles_page_standalone, with the network abstracted as an oracle
giving the outcome of the k-th attempt for this page.  The source issues
exactly one `session.get` (attempt `0`) and returns its JSON on success or
`None` on any caught exception; the second component counts the attempts
made.  The page, query and header parameters only shape the request and are
folded into the oracle. -/
def get_articles_page_standalone (fetch : Nat → FetchOutcome J) : Option J × Nat :=
  match fetch 0 with
  | FetchOutcome.success j => (some j, 1)
  | FetchOutcome.transientNetwork => (none, 1)
  | FetchOutcome.permanentClient => (none, 1)

/-- alwaysTransient is a fetcher whose every attempt fails with a transient
network error. -/
def alwaysTransient : Nat → FetchOutcome Unit := fun _ => FetchOutcome.transientNetwork

/-- pageArticles is one iteration of the page loop of
`process_page_chunk_simple` (lines 512-527): fetch the page, and on a
truthy response extract its articles; a `None`/falsy response or a caught
exception contributes no articles.  The fetch oracle's `none` covers both
the `None` return of `get_articles_page_standalone` and an exception caught
by the `except` clause of the loop. -/
def pageArticles (fetchPage : Nat → Option J) (extract : J → List A) (p : Nat) : List A :=
  match fetchPage p with
  | some r => extract r
  | none => []

/-- process_page_chunk_simple: the `for page_num in page_numbers` loop,
extending `all_articles` with each page's articles and never aborting on a
failed page; it returns the collected articles and `len(page_numbers)` as
the pages-done count (the loop reports every page of the chunk). -/
def process_page_chunk_simple (fetchPage : Nat → Option J) (extract : J → List A)
    (pages : List Nat) : List A × Nat :=
  (pages.foldl (fun acc p => acc ++ pageArticles fetchPage extract p) [], pages.length)

/-- process_article_chunk_standalone (`dergipark_hybric.py`, lines 758-806):
each URL is scraped inside its own `try` (`scrape_single_article_standalone`),
yielding `None` on a non-200 status or any exception; the gathered results
are filtered to the non-`None`, non-exception ones. -/
def process_article_chunk_standalone (scrape : String → Option R) (urls : List String) : List R :=
  (urls.map scrape).reduceOption

theorem process_page_foldl (fetchPage : Nat → Option J) (extract : J → List A) :
    ∀ (pages : List Nat) (acc : List A),
      pages.foldl (fun acc p => acc ++ pageArticles fetchPage extract p) acc =
        acc ++ pages.flatMap (pageArticles fetchPage extract) := by
  intro pages
  induction pages with
  | nil => simp
  | cons p ps ih => intro acc; simp [ih, List.flatMap_cons, List.append_assoc]

/-! ## Deduplication
`dergipark_hybric.py`, `collect_all_dergipark_data_HYBRID` (lines 346-371):
```
seen_article_urls = set()
...
for article_data in articles_overview:
    if article_data['url'] not in seen_article_urls:
        seen_article_urls.add(article_data['url'])
        new_article_urls.append(article_data['url'])
```
-/

/-- acceptUrl is the membership-test-then-insert step on `seen_article_urls`:
it returns whether the identity was newly accepted, and the updated seen set
(modelled as a list queried by membership). -/
def acceptUrl (seen : List String) (u : String) : Bool × List String :=
  if u ∈ seen then (false, seen) else (true, u :: seen)

/-- filterNewUrls is the per-journal duplicate filter: the first component is
`new_article_urls` (the identities emitted towards scraping and persistence,
in input order), the second the final seen set. -/
def filterNewUrls (seen : List String) : List String → List String × List String
  | [] => ([], seen)
  | u :: us =>
    let step := acceptUrl seen u
    let rest := filterNewUrls step.2 us
    (if step.1 then u :: rest.1 else rest.1, rest.2)

theorem filterNewUrls_mem (us : List String) : ∀ (seen : List String) (u : String),
    u ∈ (filterNewUrls seen us).1 ↔ (u ∈ us ∧ u ∉ seen) := by
  induction us with
  | nil => intro seen u; simp [filterNewUrls]
  | cons v vs ih =>
    intro seen u
    by_cases hv : v ∈ seen
    · simp only [filterNewUrls, acceptUrl, if_pos hv]
      rw [if_neg Bool.false_ne_true, ih seen u]
      constructor
      · rintro ⟨h1, h2⟩; exact ⟨List.mem_cons_of_mem v h1, h2⟩
      · rintro ⟨h1, h2⟩
        rcases List.mem_cons.mp h1 with h | h
        · subst h; exact absurd hv h2
        · exact ⟨h, h2⟩
    · simp only [filterNewUrls, acceptUrl, if_neg hv]
      rw [if_pos trivial, List.mem_cons, ih (v :: seen) u]
      constructor
      · rintro (h | ⟨h1, h2⟩)
        · subst h; exact ⟨List.mem_cons_self u vs, hv⟩
        · exact ⟨List.mem_cons_of_mem v h1, fun hs => h2 (List.mem_cons_of_mem v hs)⟩
      · rintro ⟨h1, h2⟩
        rcases List.mem_cons.mp h1 with h | h
        · exact Or.inl h
        · by_cases huv : u = v
          · exact Or.inl huv
          · exact Or.inr ⟨h, by simp [List.mem_cons, huv, h2]⟩

theorem filterNewUrls_nodup (us : List String) :
    ∀ seen : List String, (filterNewUrls seen us).1.Nodup := by
  induction us with
  | nil => intro seen; simp [filterNewUrls]
  | cons v vs ih =>
    intro seen
    by_cases hv : v ∈ seen
    · simp only [filterNewUrls, acceptUrl, if_pos hv]
      rw [if_neg Bool.false_ne_true]
      exact ih seen
    · simp only [filterNewUrls, acceptUrl, if_neg hv]
      rw [if_pos trivial, List.nodup_cons]
      refine ⟨fun hm => ?_, ih (v :: seen)⟩
      exact ((filterNewUrls_mem vs (v :: seen) v).mp hm).2 (List.mem_cons_self v seen)

/-! ## Batch persistence
`dergipark_hybric.py`, `collect_all_dergipark_data_HYBRID` (lines 386-394 and
400-402):
```
if len(all_articles_data) >= BATCH_SAVE_SIZE:
    batch_manager.save_batch(all_articles_data, slug)
    all_articles_data = []  # Clear memory
...
if all_articles_data:  # Save any remaining articles
    batch_manager.save_batch(all_articles_data)
```
The `save_batch` sink lives in the `scrape_time_calculator` module, which is
not part of the sources; the state below records each batch handed to it. -/

/-- BATCH_SAVE_SIZE is the configured flush threshold (`dergipark_hybric.py`,
line 35). -/
def BATCH_SAVE_SIZE : Nat := 1000

/-- BatchState holds the in-memory accumulation (`all_articles_data`) and the
sequence of batches handed to `batch_manager.save_batch` so far. -/
structure BatchState (R : Type) where
  batch : List R
  flushed : List (List R)
deriving DecidableEq

/-- batchStep is one journal iteration's effect on the accumulation: extend
`all_articles_data` with the journal's records, then flush and clear it when
the threshold is reached.  The source runs the length check whenever the
journal contributed article URLs; on iterations it skips, the batch is
unchanged and (being always below the threshold after a flush) the check
would not fire, so the unguarded check below has the same behaviour. -/
def batchStep (B : Nat) (s : BatchState R) (recs : List R) : BatchState R :=
  let b := s.batch ++ recs
  if B ≤ b.length then ⟨[], s.flushed ++ [b]⟩ else ⟨b, s.flushed⟩

/-- runJournals folds the per-journal persistence step over a run, starting
from an empty accumulation and no flushed batches. -/
def runJournals (B : Nat) (journals : List (List R)) : BatchState R :=
  journals.foldl (batchStep B) ⟨[], []⟩

/-- finalFlush is the end-of-run save: any remaining accumulated records are
flushed as one final batch (`if all_articles_data: save_batch(...)`). -/
def finalFlush (s : BatchState R) : List (List R) :=
  if s.batch.isEmpty then s.flushed else s.flushed ++ [s.batch]

theorem batchStep_content (B : Nat) (s : BatchState R) (recs : List R) :
    (batchStep B s recs).flushed.flatten ++ (batchStep B s recs).batch =
      s.flushed.flatten ++ s.batch ++ recs := by
  by_cases h : B ≤ s.batch.length + recs.length
  · simp [batchStep, List.length_append, h, List.append_assoc]
  · simp [batchStep, List.length_append, h, List.append_assoc]

theorem runJournals_content (B : Nat) (journals : List (List R)) :
    (runJournals B journals).flushed.flatten ++ (runJournals B journals).batch =
      journals.flatten := by
  have H : ∀ (js : List (List R)) (s : BatchState R),
      (js.foldl (batchStep B) s).flushed.flatten ++ (js.foldl (batchStep B) s).batch =
        s.flushed.flatten ++ s.batch ++ js.flatten := by
    intro js
    induction js with
    | nil => intro s; simp
    | cons j rest ih =>
      intro s
      simp only [List.foldl_cons, List.flatten_cons]
      rw [ih (batchStep B s j), batchStep_content]
      simp [List.append_assoc]
  simpa using H journals ⟨[], []⟩

/-! ## Incremental CSV saving
`holy_yoktez_scraper.py`, `_save_csv` (lines 429-447) opens the output file
with mode `"w"` and writes a header plus one row per accumulated thesis;
`scrape_all_universities` (lines 108-110 and 141-143) calls it after every
university with the whole `all_theses` list and the same `output_filename`.
A file store is modelled as a map from names to row lists (initially all
empty). -/

/-- save_csv models `_save_csv`: an empty thesis list returns without
touching the store (`if not theses: return`); otherwise the named file is
opened with mode `"w"`, truncating it, and rewritten with the given rows. -/
def save_csv (store : String → List R) (filename : String) (theses : List R) :
    String → List R :=
  if theses.isEmpty then store
  else fun f => if f = filename then theses else store f

/-- scrapeAllStep is one university iteration of `scrape_all_universities`:
extend `all_theses` with the university's theses, then
`if all_theses: self._save_csv(all_theses, output_filename, ...)`. -/
def scrapeAllStep (filename : String) (s : List R × (String → List R)) (theses : List R) :
    List R × (String → List R) :=
  let all := s.1 ++ theses
  (all, save_csv s.2 filename all)

/-- runScrapeAll folds the per-university save loop over a run, starting from
no theses and an empty file store. -/
def runScrapeAll (filename : String) (unis : List (List R)) : List R × (String → List R) :=
  unis.foldl (scrapeAllStep filename) ([], fun _ => [])

theorem runScrapeAll_spec (filename : String) (unis : List (List R)) :
    (runScrapeAll filename unis).1 = unis.flatten ∧
    (runScrapeAll filename unis).2 filename = unis.flatten ∧
    ∀ f, f ≠ filename → (runScrapeAll filename unis).2 f = [] := by
  have H : ∀ (us : List (List R)) (all : List R) (store : String → List R),
      store filename = all → (∀ f, f ≠ filename → store f = []) →
      (us.foldl (scrapeAllStep filename) (all, store)).1 = all ++ us.flatten ∧
      (us.foldl (scrapeAllStep filename) (all, store)).2 filename = all ++ us.flatten ∧
      ∀ f, f ≠ filename → (us.foldl (scrapeAllStep filename) (all, store)).2 f = [] := by
    intro us
    induction us with
    | nil => intro all store h1 h2; simpa using ⟨h1, h2⟩
    | cons u rest ih =>
      intro all store h1 h2
      simp only [List.foldl_cons, List.flatten_cons]
      have step : scrapeAllStep filename (all, store) u = (all ++ u, save_csv store filename (all ++ u)) := rfl
      rw [step]
      have hsave1 : save_csv store filename (all ++ u) filename = all ++ u := by
        by_cases he : (all ++ u).isEmpty
        · have hnil := List.append_eq_nil.mp (List.isEmpty_iff.mp he)
          simp [save_csv, he, h1, hnil.1, hnil.2]
        · simp [save_csv, he]
      have hsave2 : ∀ f, f ≠ filename → save_csv store filename (all ++ u) f = [] := by
        intro f hf
        by_cases he : (all ++ u).isEmpty
        · simp [save_csv, he, h2 f hf]
        · simp [save_csv, he, hf, h2 f hf]
      have := ih (all ++ u) (save_csv store filename (all ++ u)) hsave1 hsave2
      simpa [List.append_assoc] using this
  simpa using H unis [] (fun _ => []) rfl (fun _ _ => rfl)

/-! ## Discovery
`dergipark_hybric.py`, `get_journal_slugs_and_titles_by_scraping`
(lines 195-238): a `while page_num <= MAX_JOURNAL_EXPLORE_PAGES` loop starting
at `page_num = 2`; each iteration performs one `requests.get` inside a `try`;
on any exception the loop `break`s and the accumulated `journal_data` is
returned; an empty `journal_elements` list also `break`s; otherwise each
fresh slug is appended once (guarded by `seen_slugs`).  The fetch oracle
takes a page number and an attempt index so that the number of attempts the
loop makes per page is observable. -/

/-- MAX_JOURNAL_EXPLORE_PAGES is the configured discovery page bound
(`dergipark_hybric.py`, line 29). -/
def MAX_JOURNAL_EXPLORE_PAGES : Nat := 3

/-- addNewSlugs is the inner `for link in journal_elements` loop: append each
slug not seen before, in page order (`journal_data` and `seen_slugs` always
hold the same slugs, so one list with membership tests models both). -/
def addNewSlugs (acc : List String) (items : List String) : List String :=
  items.foldl (fun a s => if s ∈ a then a else a ++ [s]) acc

/-- discoverPages is the discovery loop over the remaining page numbers the
`while` condition still admits.  The oracle gives, for page `p` and attempt
`k`, either an exception (`Except.error`) or the link list scraped from the
page; the loop only ever issues attempt `0` for each page, and both an
exception and an empty link list `break` it.  The result pairs the final
`journal_data` with the total number of `requests.get` calls made. -/
def discoverPages (fetch : Nat → Nat → Except Unit (List String)) :
    List Nat → List String → Nat → List String × Nat
  | [], acc, calls => (acc, calls)
  | p :: ps, acc, calls =>
    match fetch p 0 with
    | Except.error _ => (acc, calls + 1)
    | Except.ok [] => (acc, calls + 1)
    | Except.ok items => discoverPages fetch ps (addNewSlugs acc items) (calls + 1)

/-- get_journal_slugs_and_titles_by_scraping visits pages
`2 .. MAX_JOURNAL_EXPLORE_PAGES` (the `while page_num <= MAX` loop starting
at `page_num = 2`) with an empty accumulator. -/
def get_journal_slugs_and_titles_by_scraping (fetch : Nat → Nat → Except Unit (List String)) :
    List String × Nat :=
  discoverPages fetch (List.range' 2 (MAX_JOURNAL_EXPLORE_PAGES - 1)) [] 0

/-- transientDiscovery is a discovery oracle whose page 2 fails on the first
attempt but would succeed on any retry; page 3 always succeeds. -/
def transientDiscovery : Nat → Nat → Except Unit (List String) :=
  fun page attempt =>
    if page = 2 ∧ attempt = 0 then Except.error ()
    else Except.ok ["journal-a"]

/-! ## Year-sharded crawl trace
`holy_yoktez_scraper.py`, `_scrape_university_by_year` (lines 222-260):
```
for batch_start in range(0, len(years), year_batch):
    batch_years = years[batch_start:batch_start + year_batch]
    contexts = []
    for _ in batch_years: contexts.append(await browser.new_context(...))
    try:
        tasks = [...]
        results = await asyncio.gather(*tasks, return_exceptions=True)
        ...
    finally:
        for ctx in contexts: await ctx.close()
    await asyncio.sleep(1)
```
The sequential `for` loop, the `await ... gather` and the `finally` force the
trace: for sub-batch `i`, all its contexts are opened, its year units
complete in some arbitrary order, and then all its contexts are closed,
before the loop body for sub-batch `i + 1` starts.  The model makes the
completion order an arbitrary parameter `perm`. -/

/-- EKind is the kind of one observable resource event of the year-sharded
crawl: a browser context being opened, a year unit completing, or a context
being released. -/
inductive EKind where
  | openCtx : EKind
  | completeYear : Nat → EKind
  | closeCtx : EKind
deriving DecidableEq

/-- YEvent is one event of the crawl trace, tagged with the index of the
sub-batch it belongs to. -/
structure YEvent where
  batch : Nat
  kind : EKind
deriving DecidableEq

/-- subBatchBlock is the trace of one sub-batch: its contexts open (one per
year), its year units complete in the order chosen by `perm`, and then all
its contexts close (the `finally`). -/
def subBatchBlock (perm : Nat → List Nat → List Nat) (i : Nat) (ys : List Nat) : List YEvent :=
  ys.map (fun _ => ⟨i, EKind.openCtx⟩) ++
    (perm i ys).map (fun y => ⟨i, EKind.completeYear y⟩) ++
    ys.map (fun _ => ⟨i, EKind.closeCtx⟩)

/-- batchBlocks concatenates the sub-batch traces in the order of the
sequential `for batch_start in range(...)` loop. -/
def batchBlocks (perm : Nat → List Nat → List Nat) (i : Nat) : List (List Nat) → List YEvent
  | [] => []
  | ys :: rest => subBatchBlock perm i ys ++ batchBlocks perm (i + 1) rest

/-- theYears is `list(self.year_range)` with `year_range = range(1980, 2026)`. -/
def theYears : List Nat := List.range' 1980 46

/-- yearTrace is the full trace of `_scrape_university_by_year` for a given
`year_batch` and per-batch completion order: the year list is sliced exactly
as the Python `years[batch_start:batch_start + year_batch]` loop does. -/
def yearTrace (yearBatch : Nat) (perm : Nat → List Nat → List Nat) : List YEvent :=
  batchBlocks perm 0 (sliceChunks yearBatch theYears)

theorem subBatchBlock_batch (perm : Nat → List Nat → List Nat) (i : Nat) (ys : List Nat) :
    ∀ e ∈ subBatchBlock perm i ys, e.batch = i := by
  intro e he
  simp only [subBatchBlock, List.mem_append, List.mem_map] at he
  rcases he with (⟨_, _, h⟩ | ⟨_, _, h⟩) | ⟨_, _, h⟩ <;> subst h <;> rfl

theorem batchBlocks_batch_le (perm : Nat → List Nat → List Nat) :
    ∀ (cs : List (List Nat)) (i : Nat), ∀ e ∈ batchBlocks perm i cs, i ≤ e.batch := by
  intro cs
  induction cs with
  | nil => intro i e he; simp [batchBlocks] at he
  | cons ys rest ih =>
    intro i e he
    rcases List.mem_append.mp he with h | h
    · exact Nat.le_of_eq (subBatchBlock_batch perm i ys e h).symm
    · exact Nat.le_of_succ_le (ih (i + 1) e h)

theorem pairwise_of_const_batch (l : List YEvent) (i : Nat) (h : ∀ e ∈ l, e.batch = i) :
    l.Pairwise (fun a b => a.batch ≤ b.batch) := by
  induction l with
  | nil => exact List.Pairwise.nil
  | cons e rest ih =>
    refine List.Pairwise.cons ?_ (ih fun x hx => h x (List.mem_cons_of_mem e hx))
    intro b hb
    rw [h e (List.mem_cons_self e rest), h b (List.mem_cons_of_mem e hb)]

theorem batchBlocks_pairwise (perm : Nat → List Nat → List Nat) :
    ∀ (cs : List (List Nat)) (i : Nat),
      (batchBlocks perm i cs).Pairwise (fun a b => a.batch ≤ b.batch) := by
  intro cs
  induction cs with
  | nil => intro i; exact List.Pairwise.nil
  | cons ys rest ih =>
    intro i
    rw [batchBlocks, List.pairwise_append]
    refine ⟨pairwise_of_const_batch _ i (subBatchBlock_batch perm i ys), ih (i + 1), ?_⟩
    intro a ha b hb
    rw [subBatchBlock_batch perm i ys a ha]
    exact Nat.le_of_succ_le (batchBlocks_batch_le perm rest (i + 1) b hb)

/-! ## Page scheduling cap
`Doaj_scraper_multiproces.py`, `scrape_all_articles_SIMPLE` (lines 207-217):
```
if max_pages is None:
    max_pages = self.discover_total_pages(query=query, year_filter=year_filter)
    max_pages = min(max_pages, 6524)  # Don't murder their servers
...
page_numbers = list(range(1, max_pages + 1))
```
`discover_total_pages` is declared nowhere in the sources; its result is
abstracted as an arbitrary discovered total. -/

/-- scheduled_pages gives the page numbers scheduled for fetching when
`max_pages` is `None`: the discovered total is capped at 6524 and the pages
`1..max_pages` are generated. -/
def scheduled_pages (discoveredTotal : Nat) : List Nat :=
  List.range' 1 (min discoveredTotal 6524)

/-- ceilDiv_pos: the chunk size `ceil(n / k)` is positive whenever the list
is non-empty and the process count is positive. -/
theorem ceilDiv_pos (n k : Nat) (hn : 0 < n) (hk : 0 < k) : 0 < ceilDiv n k := by
  unfold ceilDiv
  exact (Nat.one_le_div_iff hk).mpr (by omega)

/-! ## Claims -/

/-- C1 (counterexample): a fetcher that always fails with a transient network
error causes exactly ONE fetch attempt in `get_articles_page_standalone`,
not `retry_count + 1`: for the configuration `retry_count = 3` the claimed
attempt count would be `4`, but the code has no retry loop at all (and no
backoff), so the claimed equality fails at this input. -/
theorem retry_bound_counterexample :
    (get_articles_page_standalone alwaysTransient).2 = 1 ∧ (1 : Nat) ≠ 3 + 1 :=
  ⟨rfl, by decide⟩

/-- C1 (amended): for every fetcher that always fails with a transient
network error, `get_articles_page_standalone` makes exactly one fetch
attempt, records the unit as failed (`None`), and returns — it never loops. -/
theorem fetch_single_attempt {J : Type} (fetch : Nat → FetchOutcome J)
    (h : ∀ k, fetch k = FetchOutcome.transientNetwork) :
    get_articles_page_standalone fetch = (none, 1) := by
  unfold get_articles_page_standalone
  rw [h 0]

/-- C1 witness: the amended claim evaluated at the always-transient fetcher. -/
theorem fetch_single_attempt_witness :
    get_articles_page_standalone alwaysTransient = (none, 1) :=
  fetch_single_attempt alwaysTransient (fun _ => rfl)

/-- C2 (counterexample): on the empty page list the Doaj chunker computes
`chunk_size = ceil(0 / 2) = 0` and `range(0, 0, 0)` raises `ValueError`, so
no chunks (hence no partition) are produced for that input, contrary to the
claim's quantification over every input list. -/
theorem partition_empty_counterexample :
    doajPartition 2 ([] : List Nat) = Except.error "range() arg 3 must not be zero" :=
  rfl

/-- C2 (amended): for every NON-EMPTY input list and positive process count,
the chunks produced by either partitioner concatenate back to exactly the
input list — every element appears in exactly one chunk, in order, and no
chunk holds a foreign element; the dergipark variant also handles the empty
list (returning no chunks).  On the empty list the Doaj variant raises
instead. -/
theorem partition_complete {α : Type} (l : List α) (numProcesses : Nat)
    (hl : l ≠ []) (hN : 0 < numProcesses) :
    (doajPartition numProcesses l).map List.flatten = Except.ok l ∧
    (hybridPartition numProcesses l).flatten = l := by
  have hn : 0 < l.length := List.length_pos.mpr hl
  have hc : ceilDiv l.length numProcesses ≠ 0 :=
    Nat.pos_iff_ne_zero.mp (ceilDiv_pos l.length numProcesses hn hN)
  constructor
  · simp [doajPartition, hc, sliceChunks_filter, sliceChunks_join, Except.map]
  · have hle : ¬ l.isEmpty := by simp [List.isEmpty_iff, hl]
    simp [hybridPartition, hle, sliceChunks_filter, sliceChunks_join]

/-- C2 witness: the partition property evaluated on a concrete three-element
list split across two processes. -/
theorem partition_complete_witness :
    (doajPartition 2 [1, 2, 3]).map List.flatten = Except.ok [1, 2, 3] ∧
    (hybridPartition 2 [1, 2, 3]).flatten = [1, 2, 3] :=
  partition_complete [1, 2, 3] 2 (by decide) (by decide)

/-- C3 (counterexample): for three Targets with estimated unit counts
`[5, 500, 5]` and `process_count = 2`, the partitioner groups the first two
Targets positionally (`chunk_size = ceil(3/2) = 2`), so the chunk weights
are `505` and `5`: they differ by `500`, the full weight of the heavy
Target, which is not below even the loosest tolerance of `500` — the
partitioner does not balance unit counts, and no imbalance tolerance is
configured anywhere in the code. -/
theorem partition_weight_counterexample :
    doajPartition 2 [5, 500, 5] = Except.ok [[5, 500], [5]] ∧
    chunkWeights [[5, 500], [5]] = [505, 5] ∧
    505 - 5 = 500 ∧ ¬(500 < 500) :=
  ⟨rfl, rfl, rfl, by decide⟩

/-- C3 (amended): the Partitioner balances only Target COUNT, not estimated
unit count: it cuts the list into contiguous chunks of at most
`ceil(n / process_count)` Targets each, ignoring weights; in particular for
unit counts `[5, 500, 5]` and `process_count = 2` the chunk weights are
`505` and `5`. -/
theorem partition_count_balanced :
    (∀ (l : List Nat) (numProcesses : Nat), l ≠ [] → 0 < numProcesses →
      ∀ ch ∈ sliceChunks (ceilDiv l.length numProcesses) l,
        ch.length ≤ ceilDiv l.length numProcesses) ∧
    (doajPartition 2 [5, 500, 5]).map chunkWeights = Except.ok [505, 5] := by
  constructor
  · intro l numProcesses hl hN ch hch
    have hc : 0 < ceilDiv l.length numProcesses :=
      ceilDiv_pos l.length numProcesses (List.length_pos.mpr hl) hN
    exact sliceChunks_length_le _ hc l ch hch
  · rfl

/-- C3 witness: the count-balance bound evaluated on the scenario list. -/
theorem partition_count_balanced_witness :
    (∀ ch ∈ sliceChunks (ceilDiv 3 2) [5, 500, 5], ch.length ≤ ceilDiv 3 2) ∧
    (doajPartition 2 [5, 500, 5]).map chunkWeights = Except.ok [505, 5] :=
  ⟨partition_count_balanced.1 [5, 500, 5] 2 (by decide) (by decide),
    partition_count_balanced.2⟩

/-- C4: offering the same Record identity to the dedup index twice yields
accepted-then-rejected (`true` then `false`), and the list of identities
emitted towards scraping and persistence (`new_article_urls`) is
duplicate-free and contains exactly the input identities not already seen —
so the persistence layer receives exactly one copy per identity within the
run. -/
theorem dedup_accept_once :
    (∀ (seen : List String) (u : String), u ∉ seen →
      acceptUrl seen u = (true, u :: seen) ∧ (acceptUrl (acceptUrl seen u).2 u).1 = false) ∧
    ∀ (seen us : List String),
      (filterNewUrls seen us).1.Nodup ∧
      ∀ u : String, u ∈ (filterNewUrls seen us).1 ↔ (u ∈ us ∧ u ∉ seen) := by
  constructor
  · intro seen u hu
    refine ⟨by simp [acceptUrl, hu], ?_⟩
    simp [acceptUrl, hu]
  · intro seen us
    exact ⟨filterNewUrls_nodup us seen, fun u => filterNewUrls_mem us seen u⟩

/-- C4 witness: the dedup behaviour evaluated on a concrete repeated
identity. -/
theorem dedup_accept_once_witness :
    (acceptUrl [] "a" = (true, ["a"]) ∧ (acceptUrl (acceptUrl [] "a").2 "a").1 = false) ∧
    ((filterNewUrls [] ["a", "a", "b"]).1.Nodup ∧
      ∀ u : String, u ∈ (filterNewUrls [] ["a", "a", "b"]).1 ↔
        (u ∈ ["a", "a", "b"] ∧ u ∉ ([] : List String))) :=
  ⟨dedup_accept_once.1 [] "a" (by simp), dedup_accept_once.2 [] ["a", "a", "b"]⟩

/-- C5: when the accumulation reaches the configured `BATCH_SAVE_SIZE`
(generically, any positive threshold `B`), exactly one flush fires and the
in-memory batch is cleared; and for every run, the concatenation of all
flushed batches (including the final end-of-run flush) is exactly the
concatenation of all accumulated records — no record is left unpersisted. -/
theorem batch_flush_boundary :
    (∀ (B : Nat) (recs : List Nat), 0 < B → recs.length = B →
      runJournals B [recs] = ⟨[], [recs]⟩) ∧
    ∀ (B : Nat) (journals : List (List Nat)),
      (finalFlush (runJournals B journals)).flatten = journals.flatten := by
  constructor
  · intro B recs hB hlen
    show batchStep B ⟨[], []⟩ recs = ⟨[], [recs]⟩
    simp [batchStep, hlen]
  · intro B journals
    have h := runJournals_content B journals
    unfold finalFlush
    by_cases hb : (runJournals B journals).batch.isEmpty
    · rw [if_pos hb]
      have hnil : (runJournals B journals).batch = [] := List.isEmpty_iff.mp hb
      rw [hnil, List.append_nil] at h
      exact h
    · rw [if_neg hb]
      simpa [List.flatten_append] using h

/-- C5 witness: the flush boundary and conservation evaluated at threshold 3
with a three-record journal, and at the default threshold on a short run. -/
theorem batch_flush_boundary_witness :
    runJournals 3 [[1, 2, 3]] = ⟨[], [[1, 2, 3]]⟩ ∧
    (finalFlush (runJournals BATCH_SAVE_SIZE [[1, 2], [4]])).flatten =
      ([[1, 2], [4]] : List (List Nat)).flatten :=
  ⟨batch_flush_boundary.1 3 [1, 2, 3] (by decide) (by decide),
    batch_flush_boundary.2 BATCH_SAVE_SIZE [[1, 2], [4]]⟩

/-- C6 (counterexample): `_save_csv` opens the same `output_filename` with
mode `"w"` on every incremental save, so a later flush REWRITES the artifact
written by an earlier flush: after saving `[1]`, the file holds `[1]`; after
the next university the same file holds `[1, 2]` — the data made durable by
the first flush is not an unchanged independent artifact. -/
theorem save_rewrite_counterexample :
    (runScrapeAll "out.csv" [[1]]).2 "out.csv" = [1] ∧
    (runScrapeAll "out.csv" [[1], [2]]).2 "out.csv" = [1, 2] ∧
    (runScrapeAll "out.csv" [[1], [2]]).2 "out.csv" ≠ (runScrapeAll "out.csv" [[1]]).2 "out.csv" :=
  ⟨rfl, rfl, by decide⟩

/-- C6 (amended): every incremental save rewrites the single output file in
place with the whole accumulated list (there is one artifact, not one per
flush); after any sequence of universities the file holds exactly the
cumulative record list, and no other file is ever touched. -/
theorem save_rewrites_in_place (unis : List (List Nat)) :
    (runScrapeAll "out.csv" unis).1 = unis.flatten ∧
    (runScrapeAll "out.csv" unis).2 "out.csv" = unis.flatten ∧
    ∀ f, f ≠ "out.csv" → (runScrapeAll "out.csv" unis).2 f = [] :=
  runScrapeAll_spec "out.csv" unis

/-- C6 witness: the rewrite-in-place behaviour evaluated on a two-university
run, including the frame condition on another file name. -/
theorem save_rewrites_in_place_witness :
    (runScrapeAll "out.csv" [[1], [2]]).1 = [1, 2] ∧
    (runScrapeAll "out.csv" [[1], [2]]).2 "out.csv" = [1, 2] ∧
    (runScrapeAll "out.csv" [[1], [2]]).2 "backup.csv" = [] := by
  have h := save_rewrites_in_place [[1], [2]]
  exact ⟨by simpa using h.1, by simpa using h.2.1, h.2.2 "backup.csv" (by decide)⟩

/-- C7: a single unit whose fetch fails (exception or empty/falsy result)
contributes nothing and changes nothing else: processing a chunk containing
the failing unit returns exactly the results of the other units, the chunk
completes (all pages counted, no abort), and the same isolation holds for
the dergipark article-chunk worker. -/
theorem unit_failure_isolated :
    (∀ (J A : Type) (fetchPage : Nat → Option J) (extract : J → List A)
        (l₁ l₂ : List Nat) (p : Nat), fetchPage p = none →
      (process_page_chunk_simple fetchPage extract (l₁ ++ p :: l₂)).1 =
        (process_page_chunk_simple fetchPage extract l₁).1 ++
          (process_page_chunk_simple fetchPage extract l₂).1 ∧
      (process_page_chunk_simple fetchPage extract (l₁ ++ p :: l₂)).2 =
        l₁.length + l₂.length + 1) ∧
    ∀ (R : Type) (scrape : String → Option R) (u₁ u₂ : List String) (u : String),
      scrape u = none →
      process_article_chunk_standalone scrape (u₁ ++ u :: u₂) =
        process_article_chunk_standalone scrape u₁ ++
          process_article_chunk_standalone scrape u₂ := by
  constructor
  · intro J A fetchPage extract l₁ l₂ p hp
    have e : ∀ pages : List Nat,
        (process_page_chunk_simple fetchPage extract pages).1 =
          pages.flatMap (pageArticles fetchPage extract) := by
      intro pages
      show pages.foldl (fun acc q => acc ++ pageArticles fetchPage extract q) [] = _
      rw [process_page_foldl]
      simp
    constructor
    · rw [e, e, e]
      simp [List.flatMap_append, List.flatMap_cons, pageArticles, hp]
    · simp [process_page_chunk_simple]
      omega
  · intro R scrape u₁ u₂ u hu
    simp [process_article_chunk_standalone, hu, List.reduceOption_append,
      List.reduceOption_cons_of_none]

/-- pageOracle is a concrete fetch oracle failing exactly on page 2. -/
def pageOracle : Nat → Option Nat := fun p => if p = 2 then none else some p

/-- extractSingleton is a concrete extractor emitting its payload. -/
def extractSingleton : Nat → List Nat := fun r => [r]

/-- scrapeOracle is a concrete article scraper failing exactly on URL "b". -/
def scrapeOracle : String → Option Nat := fun u => if u = "b" then none else some 0

/-- C7 witness: failure isolation evaluated on concrete chunks where page 2
respectively URL "b" fail. -/
theorem unit_failure_isolated_witness :
    ((process_page_chunk_simple pageOracle extractSingleton ([1] ++ 2 :: [3])).1 =
        (process_page_chunk_simple pageOracle extractSingleton [1]).1 ++
          (process_page_chunk_simple pageOracle extractSingleton [3]).1 ∧
      (process_page_chunk_simple pageOracle extractSingleton ([1] ++ 2 :: [3])).2 = 3) ∧
    process_article_chunk_standalone scrapeOracle (["a"] ++ "b" :: ["c"]) =
      process_article_chunk_standalone scrapeOracle ["a"] ++
        process_article_chunk_standalone scrapeOracle ["c"] :=
  ⟨unit_failure_isolated.1 Nat Nat pageOracle extractSingleton [1] [3] 2 (by decide),
    unit_failure_isolated.2 Nat scrapeOracle ["a"] ["c"] "b" (by decide)⟩

/-- C8 (counterexample): the discovery loop never retries a failed page.
With an oracle whose page 2 fails only on its first attempt (any single
retry would succeed and yield "journal-a"), discovery makes exactly one
`requests.get` call in total — fewer than the two calls any retrying
implementation (bound at least 1) would make — and returns the empty partial
list, missing the recoverable Targets. -/
theorem discovery_no_retry_counterexample :
    get_journal_slugs_and_titles_by_scraping transientDiscovery = ([], 1) ∧
    transientDiscovery 2 1 = Except.ok ["journal-a"] ∧
    ¬(2 ≤ (get_journal_slugs_and_titles_by_scraping transientDiscovery).2) :=
  ⟨rfl, rfl, by decide⟩

/-- C8 (amended): when a discovery page fails, the loop does NOT retry it: a
single fetch attempt is made for the failing page, the loop breaks, and the
partial Target list accumulated from the earlier pages is returned unchanged
— the failure never aborts the run (the function returns normally) and never
discards previously discovered Targets. -/
theorem discovery_partial_on_failure (fetch : Nat → Nat → Except Unit (List String))
    (p : Nat) (ps : List Nat) (acc : List String) (calls : Nat)
    (hfail : fetch p 0 = Except.error ()) :
    discoverPages fetch (p :: ps) acc calls = (acc, calls + 1) := by
  simp [discoverPages, hfail]

/-- C8 witness: the break-on-failure behaviour evaluated with the transient
oracle, one earlier Target already accumulated. -/
theorem discovery_partial_on_failure_witness :
    discoverPages transientDiscovery [2, 3] ["earlier-journal"] 0 = (["earlier-journal"], 1) :=
  discovery_partial_on_failure transientDiscovery 2 [3] ["earlier-journal"] 0 rfl

/-- C9: in the year-sharded crawl, sub-batches execute strictly sequentially:
every event of a later sub-batch (in particular any fetch/open) occurs at a
strictly later trace position than every event of an earlier sub-batch (in
particular all of its context releases, which the `finally` block places at
the end of its block), while the completion order within a sub-batch is an
arbitrary parameter the theorem quantifies over. -/
theorem subbatch_sequential (yearBatch : Nat) (perm : Nat → List Nat → List Nat)
    (_hy : 0 < yearBatch) (p q : Nat) (e₁ e₂ : YEvent)
    (hp : (yearTrace yearBatch perm).get? p = some e₁)
    (hq : (yearTrace yearBatch perm).get? q = some e₂)
    (hb : e₁.batch < e₂.batch) : p < q := by
  by_contra hpq
  push_neg at hpq
  have hpair : (yearTrace yearBatch perm).Pairwise (fun a b => a.batch ≤ b.batch) :=
    batchBlocks_pairwise perm _ 0
  rcases List.get?_eq_some.mp hp with ⟨hplen, hpe⟩
  rcases List.get?_eq_some.mp hq with ⟨hqlen, hqe⟩
  rcases Nat.lt_or_eq_of_le hpq with h | h
  · have := List.pairwise_iff_get.mp hpair ⟨q, hqlen⟩ ⟨p, hplen⟩ h
    rw [hpe, hqe] at this
    omega
  · subst h
    rw [hpe] at hqe
    subst hqe
    exact Nat.lt_irrefl _ hb

/-- identityOrder is the concrete within-batch completion order that keeps
the task order. -/
def identityOrder : Nat → List Nat → List Nat := fun _ ys => ys

/-- C9 witness: the sequencing theorem applied to the concrete trace with
`year_batch = 30` (sub-batch 0 holds 30 years, sub-batch 1 the remaining
16): event 0 is an open of sub-batch 0, event 137 a context release of
sub-batch 1, and the theorem places them in order. -/
theorem subbatch_sequential_witness :
    (yearTrace 30 identityOrder).get? 0 = some ⟨0, EKind.openCtx⟩ ∧
    (yearTrace 30 identityOrder).get? 137 = some ⟨1, EKind.closeCtx⟩ ∧
    (0 : Nat) < 137 := by
  have h0 : (yearTrace 30 identityOrder).get? 0 = some ⟨0, EKind.openCtx⟩ := rfl
  have h137 : (yearTrace 30 identityOrder).get? 137 = some ⟨1, EKind.closeCtx⟩ := rfl
  exact ⟨h0, h137,
    subbatch_sequential 30 identityOrder (by decide) 0 137 ⟨0, EKind.openCtx⟩
      ⟨1, EKind.closeCtx⟩ h0 h137 (by decide)⟩

/-- C10: with `max_pages = None`, the number of pages scheduled for fetching
equals the discovered total page count capped at 6524, and in particular
never exceeds 6524, for every discovered total (`discover_total_pages` is
declared nowhere in the sources; its result is the arbitrary total). -/
theorem page_cap_6524 (discoveredTotal : Nat) :
    (scheduled_pages discoveredTotal).length = min discoveredTotal 6524 ∧
    (scheduled_pages discoveredTotal).length ≤ 6524 := by
  constructor
  · simp [scheduled_pages]
  · simp [scheduled_pages]

end Indextr
